import Mathlib

/-!
Verification of the `cotk.metric.metric` core: the order-independent
fingerprint accumulator (`UnorderedSha256`), the evaluator base class
(`MetricBase`) with its open/closed lifecycle, and the evaluator chain
(`MetricChain`) that fans batches out to registered children and merges
their results on close.

`MetricBase` and `MetricChain` are embedded directly from
`src/cotk/metric/metric.py`.  The accumulator `UnorderedSha256` is imported
there from `cotk._utils.unordered_hash`, whose source is not part of the
given sources; it is modelled from the spec (see its doc comment).
Python exceptions are modelled by an explicit error type, and each method
is a function returning the outcome (`Except`) together with the state of
the object after the call, including after an exception propagates.
-/

namespace Cotk

/-! ## SHA-256 over byte lists (bytes are `Nat` values < 256) -/

/-- Truncation to a 32-bit word. -/
def w32 (x : Nat) : Nat := x % 4294967296

/-- Right rotation of a 32-bit word by `n` bits. -/
def rotr (n x : Nat) : Nat := w32 ((x >>> n) ||| (x <<< (32 - n)))

def ssig0 (x : Nat) : Nat := (rotr 7 x) ^^^ (rotr 18 x) ^^^ (x >>> 3)

def ssig1 (x : Nat) : Nat := (rotr 17 x) ^^^ (rotr 19 x) ^^^ (x >>> 10)

def bsig0 (x : Nat) : Nat := (rotr 2 x) ^^^ (rotr 13 x) ^^^ (rotr 22 x)

def bsig1 (x : Nat) : Nat := (rotr 6 x) ^^^ (rotr 11 x) ^^^ (rotr 25 x)

def chF (x y z : Nat) : Nat := (x &&& y) ^^^ ((x ^^^ 4294967295) &&& z)

def majF (x y z : Nat) : Nat := (x &&& y) ^^^ (x &&& z) ^^^ (y &&& z)

/-- The 64 SHA-256 round constants. -/
def shaK : List Nat :=
  [1116352408, 1899447441, 3049323471, 3921009573, 961987163, 1508970993,
   2453635748, 2870763221, 3624381080, 310598401, 607225278, 1426881987,
   1925078388, 2162078206, 2614888103, 3248222580, 3835390401, 4022224774,
   264347078, 604807628, 770255983, 1249150122, 1555081692, 1996064986,
   2554220882, 2821834349, 2952996808, 3210313671, 3336571891, 3584528711,
   113926993, 338241895, 666307205, 773529912, 1294757372, 1396182291,
   1695183700, 1986661051, 2177026350, 2456956037, 2730485921, 2820302411,
   3259730800, 3345764771, 3516065817, 3600352804, 4094571909, 275423344,
   430227734, 506948616, 659060556, 883997877, 958139571, 1322822218,
   1537002063, 1747873779, 1955562222, 2024104815, 2227730452, 2361852424,
   2428436474, 2756734187, 3204031479, 3329325298]

/-- The initial SHA-256 hash state. -/
def shaH0 : List Nat :=
  [1779033703, 3144134277, 1013904242, 2773480762,
   1359893119, 2600822924, 528734635, 1541459225]

/-- Iterate a function `n` times. -/
def iterN (f : α → α) : Nat → α → α
  | 0, a => a
  | n + 1, a => iterN f n (f a)

/-- One message-schedule extension step, on the reversed word list
(most recent word first). -/
def wstepRev (ws : List Nat) : List Nat :=
  w32 (ssig1 (ws.getD 1 0) + ws.getD 6 0 + ssig0 (ws.getD 14 0) + ws.getD 15 0) :: ws

/-- Expand a 16-word block to the 64-word message schedule. -/
def schedule (block : List Nat) : List Nat :=
  (iterN wstepRev 48 block.reverse).reverse

/-- One SHA-256 compression round; the state is the list `[a,b,c,d,e,f,g,h]`. -/
def shaRound (st : List Nat) (kw : Nat × Nat) : List Nat :=
  match st with
  | [a, b, c, d, e, f, g, h] =>
    let t1 := w32 (h + bsig1 e + chF e f g + kw.1 + kw.2)
    let t2 := w32 (bsig0 a + majF a b c)
    [w32 (t1 + t2), a, b, c, w32 (d + t1), e, f, g]
  | other => other

/-- Parse bytes into big-endian 32-bit words. -/
def toWords : List Nat → List Nat
  | b0 :: b1 :: b2 :: b3 :: rest =>
    (((b0 * 256 + b1) * 256 + b2) * 256 + b3) :: toWords rest
  | _ => []

/-- Compress one 16-word block into the running hash state. -/
def processBlock (hs : List Nat) (block : List Nat) : List Nat :=
  let st := (shaK.zip (schedule block)).foldl shaRound hs
  List.zipWith (fun x y => w32 (x + y)) hs st

/-- The `k` big-endian bytes of `n`. -/
def beBytes : Nat → Nat → List Nat
  | 0, _ => []
  | k + 1, n => ((n >>> (8 * k)) % 256) :: beBytes k n

/-- SHA-256 padding: append `0x80`, zero bytes to a 56 mod 64 boundary, and
the 8-byte big-endian bit length. -/
def shaPad (msg : List Nat) : List Nat :=
  msg ++ 128 :: List.replicate ((119 - msg.length % 64) % 64) 0 ++ beBytes 8 (8 * msg.length)

/-- Split a word list into 16-word blocks (a padded message always parses
into a whole number of blocks; any remainder would be dropped). -/
def chunks16 : List Nat → List (List Nat)
  | w0 :: w1 :: w2 :: w3 :: w4 :: w5 :: w6 :: w7 ::
    w8 :: w9 :: w10 :: w11 :: w12 :: w13 :: w14 :: w15 :: rest =>
    [w0, w1, w2, w3, w4, w5, w6, w7, w8, w9, w10, w11, w12, w13, w14, w15] :: chunks16 rest
  | _ => []

/-- SHA-256 of a byte list, as a list of 32 bytes. -/
def sha256 (msg : List Nat) : List Nat :=
  (((chunks16 (toWords (shaPad msg))).foldl processBlock shaH0).map (beBytes 4)).flatten

/-! ## The fingerprint accumulator -/

/-- Modelled from the spec: `metric.py` imports `UnorderedSha256` from
`cotk._utils.unordered_hash`, which is not among the given sources.  The
spec describes it as an order-independent digest accumulator "combining
independently-hashed per-record digests with a fixed-size commutative merge
such as modular addition ... of a strong per-record hash" (SHA-256, per the
class name), holding fixed-size running state.  Modelled as a 32-byte
running state, initially all zeros. -/
structure UnorderedSha256 where
  result : List Nat
deriving DecidableEq

/-- Modelled from the spec: the accumulator is created with an empty
(all-zero) running digest. -/
def UnorderedSha256.init : UnorderedSha256 :=
  ⟨List.replicate 32 0⟩

/-- Modelled from the spec: `update_data` folds one record into the running
aggregate by bytewise addition modulo 256 of the record's SHA-256 digest —
a commutative-associative combination, so the multiset of records, not
their arrival order, determines the result. -/
def UnorderedSha256.update_data (s : UnorderedSha256) (data : List Nat) : UnorderedSha256 :=
  ⟨List.zipWith (fun r d => (r + d) % 256) s.result (sha256 data)⟩

/-- Modelled from the spec: `digest` returns the current fingerprint value
without perturbing the state. -/
def UnorderedSha256.digest (s : UnorderedSha256) : List Nat :=
  s.result

/-! ## Python values and errors -/

/-- The Python exception classes raised by the core
(`ValueError`, `TypeError`, `RuntimeError`). -/
inductive PyError where
  | valueError (msg : String)
  | typeError (msg : String)
  | runtimeError (msg : String)
deriving DecidableEq

/-- The message of the closed-state errors in `metric.py`. -/
def closedMsg : String := "The metric has been closed."

/-- Modelled from the spec: the error taxonomy classes an operation
attempted on a closed evaluator or chain as InvalidStateError; in the code
these surface as `ValueError` (from `forward`) and `RuntimeError`
(from `close`), both carrying the closed-state message. -/
def PyError.isInvalidState : PyError → Bool
  | .valueError msg => msg == closedMsg
  | .runtimeError msg => msg == closedMsg
  | .typeError _ => false

/-- A batch argument passed to `forward`: either a Python `dict`
(modelled as an association list) or a non-dict object. -/
inductive PyData where
  | dict (entries : List (String × Nat))
  | nondict (tag : String)
deriving DecidableEq

/-- Python `isinstance(data, dict)`. -/
def PyData.isDict : PyData → Bool
  | .dict _ => true
  | .nondict _ => false

/-- UTF-8 bytes of a plain ASCII string (modelled characterwise). -/
def strBytes (s : String) : List Nat :=
  s.data.map Char.toNat

/-- Python `repr(item).encode()` for a plain `str` without quotes or
backslashes: the string's bytes wrapped in single-quote bytes (39). -/
def pyReprBytes (item : String) : List Nat :=
  39 :: strBytes item ++ [39]

/-! ## MetricBase (embedded from `src/cotk/metric/metric.py`) -/

/-- The instance state set up by `MetricBase.__init__`:
`self.unordered_hash = UnorderedSha256()` and `self.closed = False`. -/
structure MetricState where
  unordered_hash : UnorderedSha256
  closed : Bool
deriving DecidableEq

/-- The state created by `MetricBase.__init__`. -/
def MetricBase.init : MetricState :=
  ⟨UnorderedSha256.init, false⟩

/-- The body of the loop in `MetricBase._hash_relevant_data`:
`self.unordered_hash.update_data(repr(item).encode())`. -/
def hashItem (h : UnorderedSha256) (item : String) : UnorderedSha256 :=
  h.update_data (pyReprBytes item)

/-- Source `MetricBase._hash_relevant_data(data_list)`: for each item,
`self.unordered_hash.update_data(repr(item).encode())`.  Records are
modelled as plain ASCII strings. -/
def MetricState._hash_relevant_data (st : MetricState) (data_list : List String) : MetricState :=
  { st with unordered_hash := data_list.foldl hashItem st.unordered_hash }

/-- Source `MetricBase._hashvalue()`: `self.unordered_hash.digest()`. -/
def MetricState._hashvalue (st : MetricState) : List Nat :=
  st.unordered_hash.digest

/-- Source `MetricBase.forward(data)`: raises `ValueError` if closed, `TypeError`
if `data` is not a dict, otherwise does nothing.  The second component is
the state of the object after the call. -/
def MetricBase.forward (st : MetricState) (data : PyData) : Except PyError Unit × MetricState :=
  if st.closed then (.error (.valueError closedMsg), st)
  else if !data.isDict then (.error (.typeError "Data must be a dict."), st)
  else (.ok (), st)

/-- Source `MetricBase.close()`: if not closed, sets `closed = True` and returns
`{}`; otherwise raises `RuntimeError`. -/
def MetricBase.close (st : MetricState) : Except PyError (List (String × Nat)) × MetricState :=
  if !st.closed then (.ok [], { st with closed := true })
  else (.error (.runtimeError closedMsg), st)

/-! ## Child evaluators

`MetricChain` holds arbitrary `MetricBase` instances.  The concrete metric
subclasses are out of the core's scope, so a child is modelled abstractly:
it carries the inherited `MetricBase` state, a log of the batches its
subclass body consumed (its running statistic), the result mapping its
`close` emits, and a subclass-specific failure behaviour for `forward`. -/

/-- An arbitrary `MetricBase` subclass instance, seen through the
evaluator interface the chain needs: the inherited base state, the batches
consumed so far, the mapping emitted on close, and whether the subclass
body of `forward` raises on a given batch. -/
structure Evaluator where
  base : MetricState
  log : List PyData
  result : List (String × Nat)
  updateErr : PyData → Option PyError

/-- A subclass `forward`: first `super().forward(data)` (the closed and
dict checks of `MetricBase.forward`), then the subclass body, which either
raises or records the batch. -/
def Evaluator.forward (e : Evaluator) (data : PyData) : Except PyError Unit × Evaluator :=
  match MetricBase.forward e.base data with
  | (.error err, _) => (.error err, e)
  | (.ok _, _) =>
    match e.updateErr data with
    | some err => (.error err, e)
    | none => (.ok (), { e with log := e.log ++ [data] })

/-- A subclass `close`: first `super().close()` (the closed check, setting
`closed = True`), then the subclass body returns the child's result
mapping. -/
def Evaluator.close (e : Evaluator) : Except PyError (List (String × Nat)) × Evaluator :=
  match MetricBase.close e.base with
  | (.error err, _) => (.error err, e)
  | (.ok _, b2) => (.ok e.result, { e with base := b2 })

/-- A child evaluator that is freshly open, has consumed nothing, and
emits `res` on close. -/
def mkEvaluator (res : List (String × Nat)) : Evaluator :=
  ⟨MetricBase.init, [], res, fun _ => none⟩

/-! ## Python dict merge (`res.update(d)`) -/

/-- Set one key of a Python dict modelled as an association list:
an existing key keeps its position and gets the new value, a new key is
appended at the end. -/
def dictSet : List (String × Nat) → String → Nat → List (String × Nat)
  | [], k, v => [(k, v)]
  | (k1, v1) :: rest, k, v =>
    if k1 = k then (k1, v) :: rest else (k1, v1) :: dictSet rest k v

/-- Python `res.update(d)`: set each key of `d` in order. -/
def dictUpdate (res : List (String × Nat)) : List (String × Nat) → List (String × Nat)
  | [] => res
  | (k, v) :: rest => dictUpdate (dictSet res k v) rest

/-- Dict lookup (first entry with the key; a Python dict has unique keys). -/
def dictGet : List (String × Nat) → String → Option Nat
  | [], _ => none
  | (k1, v) :: rest, k => if k1 = k then some v else dictGet rest k

/-! ## MetricChain (embedded from `src/cotk/metric/metric.py`) -/

/-- The state set up by `MetricChain.__init__`: the inherited `MetricBase`
state plus `self.metric_list = []`. -/
structure ChainState where
  base : MetricState
  metric_list : List Evaluator

/-- The state created by `MetricChain.__init__`. -/
def MetricChain.init : ChainState :=
  ⟨MetricBase.init, []⟩

/-- The argument of `add_metric`: a `MetricBase` instance or some other
object. -/
inductive PyMetricArg where
  | metric (e : Evaluator)
  | nonmetric (tag : String)

/-- Source `MetricChain.add_metric(metric)`: raises `TypeError` unless the
argument is a `MetricBase` instance, otherwise appends it to
`self.metric_list`.  There is no closed-state check. -/
def MetricChain.add_metric (c : ChainState) (m : PyMetricArg) : Except PyError Unit × ChainState :=
  match m with
  | .nonmetric _ => (.error (.typeError "Metric must be a subclass of MetricBase"), c)
  | .metric e => (.ok (), { c with metric_list := c.metric_list ++ [e] })

/-- The loop of `MetricChain.forward`: `for metric in self.metric_list:
metric.forward(data)`.  On a child's exception the loop stops; children
already processed keep their new state. -/
def forwardChildren (data : PyData) : List Evaluator → Except PyError Unit × List Evaluator
  | [] => (.ok (), [])
  | e :: rest =>
    match Evaluator.forward e data with
    | (.error err, e2) => (.error err, e2 :: rest)
    | (.ok _, e2) =>
      match forwardChildren data rest with
      | (out, rest2) => (out, e2 :: rest2)

/-- Source `MetricChain.forward(data)`: `super().forward(data)` (closed and dict
checks), then forward the same `data` to every child in registration
order. -/
def MetricChain.forward (c : ChainState) (data : PyData) : Except PyError Unit × ChainState :=
  match MetricBase.forward c.base data with
  | (.error err, _) => (.error err, c)
  | (.ok _, _) =>
    match forwardChildren data c.metric_list with
    | (out, l2) => (out, { c with metric_list := l2 })

/-- The loop of `MetricChain.close`: `for metric in self.metric_list:
res.update(metric.close())`.  On a child's exception the loop stops. -/
def closeChildren (res : List (String × Nat)) :
    List Evaluator → Except PyError (List (String × Nat)) × List Evaluator
  | [] => (.ok res, [])
  | e :: rest =>
    match Evaluator.close e with
    | (.error err, e2) => (.error err, e2 :: rest)
    | (.ok d, e2) =>
      match closeChildren (dictUpdate res d) rest with
      | (out, rest2) => (out, e2 :: rest2)

/-- Source `MetricChain.close()`: `res = super().close()` (raises if the chain is
closed, otherwise marks it closed and yields `{}`), then merges every
child's close result into `res` in registration order. -/
def MetricChain.close (c : ChainState) : Except PyError (List (String × Nat)) × ChainState :=
  match MetricBase.close c.base with
  | (.error err, _) => (.error err, c)
  | (.ok res, b2) =>
    match closeChildren res c.metric_list with
    | (out, l2) => (out, { base := b2, metric_list := l2 })

/-! ## Call sequences -/

/-- One public call on a `MetricBase` evaluator. -/
inductive MetricOp where
  | forward (data : PyData)
  | close

/-- The evaluator state after one call (whether or not it raised). -/
def runBaseOp (st : MetricState) : MetricOp → MetricState
  | .forward data => (MetricBase.forward st data).2
  | .close => (MetricBase.close st).2

/-- The evaluator state after a sequence of calls. -/
def runBaseOps (st : MetricState) (ops : List MetricOp) : MetricState :=
  ops.foldl runBaseOp st

/-- One public call on a `MetricChain`. -/
inductive ChainOp where
  | forward (data : PyData)
  | close
  | add_metric (m : PyMetricArg)

/-- The chain state after one call (whether or not it raised). -/
def runChainOp (c : ChainState) : ChainOp → ChainState
  | .forward data => (MetricChain.forward c data).2
  | .close => (MetricChain.close c).2
  | .add_metric m => (MetricChain.add_metric c m).2

/-- The chain state after a sequence of calls. -/
def runChainOps (c : ChainState) (ops : List ChainOp) : ChainState :=
  ops.foldl runChainOp c

/-! ## Commutativity of the accumulator -/

lemma zipWith_addmod_right_comm :
    ∀ x a b : List Nat,
      List.zipWith (fun r d => (r + d) % 256) (List.zipWith (fun r d => (r + d) % 256) x a) b =
      List.zipWith (fun r d => (r + d) % 256) (List.zipWith (fun r d => (r + d) % 256) x b) a := by
  intro x
  induction x with
  | nil => intro a b; simp
  | cons xh xt ih =>
    intro a b
    cases a with
    | nil => cases b <;> simp
    | cons a1 a2 =>
      cases b with
      | nil => simp
      | cons b1 b2 =>
        simp only [List.zipWith_cons_cons, List.cons.injEq]
        exact ⟨by omega, ih a2 b2⟩

/-- Folding two records in either order yields the same accumulator. -/
lemma update_data_comm (h : UnorderedSha256) (a b : List Nat) :
    (h.update_data a).update_data b = (h.update_data b).update_data a := by
  simp only [UnorderedSha256.update_data]
  exact congrArg UnorderedSha256.mk (zipWith_addmod_right_comm h.result (sha256 a) (sha256 b))

lemma hashItem_comm (h : UnorderedSha256) (x y : String) :
    hashItem (hashItem h x) y = hashItem (hashItem h y) x := by
  simp only [hashItem]
  exact update_data_comm h (pyReprBytes x) (pyReprBytes y)

/-- Folding a permuted record list yields the same accumulator. -/
lemma foldl_hashItem_perm {l1 l2 : List String} (p : l1.Perm l2) :
    ∀ h : UnorderedSha256, l1.foldl hashItem h = l2.foldl hashItem h := by
  induction p with
  | nil => intro h; rfl
  | cons x _ ih =>
    intro h
    simp only [List.foldl_cons]
    exact ih _
  | swap x y l =>
    intro h
    simp only [List.foldl_cons]
    rw [hashItem_comm]
  | trans _ _ ih1 ih2 =>
    intro h
    rw [ih1, ih2]

/-- Hashing batch after batch is hashing the concatenation of the batches. -/
lemma hash_batches (bs : List (List String)) (st : MetricState) :
    bs.foldl MetricState._hash_relevant_data st = st._hash_relevant_data bs.flatten := by
  induction bs generalizing st with
  | nil => rfl
  | cons b rest ih =>
    simp only [List.foldl_cons, List.flatten_cons, ih, MetricState._hash_relevant_data,
      List.foldl_append]

/-- C1: feeding the records of a multiset one at a time through
`_hash_relevant_data` over `UnorderedSha256.update_data`, in any batch
grouping, yields the same final `_hashvalue` for any two orderings of the
same multiset of records: the fingerprint is invariant under reordering. -/
theorem fingerprint_order_independent (bs1 bs2 : List (List String))
    (hperm : bs1.flatten.Perm bs2.flatten) :
    (List.foldl MetricState._hash_relevant_data MetricBase.init bs1)._hashvalue =
    (List.foldl MetricState._hash_relevant_data MetricBase.init bs2)._hashvalue := by
  rw [hash_batches, hash_batches]
  simp only [MetricState._hash_relevant_data, MetricState._hashvalue, UnorderedSha256.digest]
  rw [foldl_hashItem_perm hperm]

/-- Witness for C1 at a concrete input: the batches `[hello], [world]`
and the single batch `[world, hello]` hash to the same fingerprint. -/
theorem fingerprint_order_independent_witness :
    ([["hello"], ["world"]] : List (List String)).flatten.Perm
      ([["world", "hello"]] : List (List String)).flatten ∧
    (List.foldl MetricState._hash_relevant_data MetricBase.init [["hello"], ["world"]])._hashvalue =
    (List.foldl MetricState._hash_relevant_data MetricBase.init [["world", "hello"]])._hashvalue :=
  ⟨by decide, fingerprint_order_independent [["hello"], ["world"]] [["world", "hello"]] (by decide)⟩

/-! ## Lifecycle of the base evaluator -/

lemma runBaseOp_preserves_closed {st : MetricState} (h : st.closed = true) (op : MetricOp) :
    (runBaseOp st op).closed = true := by
  cases op with
  | forward data => simp [runBaseOp, MetricBase.forward, h]
  | close => simp [runBaseOp, MetricBase.close, h]

lemma runBaseOps_preserves_closed {st : MetricState} (h : st.closed = true)
    (ops : List MetricOp) : (runBaseOps st ops).closed = true := by
  induction ops generalizing st with
  | nil => exact h
  | cons op rest ih =>
    simp only [runBaseOps, List.foldl_cons]
    exact ih (runBaseOp_preserves_closed h op)

lemma runChainOp_preserves_closed {c : ChainState} (h : c.base.closed = true) (op : ChainOp) :
    (runChainOp c op).base.closed = true := by
  cases op with
  | forward data => simp [runChainOp, MetricChain.forward, MetricBase.forward, h]
  | close => simp [runChainOp, MetricChain.close, MetricBase.close, h]
  | add_metric m => cases m <;> simp [runChainOp, MetricChain.add_metric, h]

lemma runChainOps_preserves_closed {c : ChainState} (h : c.base.closed = true)
    (ops : List ChainOp) : (runChainOps c ops).base.closed = true := by
  induction ops generalizing c with
  | nil => exact h
  | cons op rest ih =>
    simp only [runChainOps, List.foldl_cons]
    exact ih (runChainOp_preserves_closed h op)

/-- C2: once `close()` has succeeded on an evaluator, every later `forward`
raises `ValueError` and every later `close` raises `RuntimeError` — both
classed as closed-state (InvalidStateError) errors by the spec's taxonomy —
the failing call returns the state unchanged, and repeating the failing
call produces the identical outcome. -/
theorem closed_evaluator_rejects_calls (st st2 : MetricState) (res : List (String × Nat))
    (hc : MetricBase.close st = (.ok res, st2)) (data : PyData) :
    MetricBase.forward st2 data = (.error (.valueError closedMsg), st2) ∧
    MetricBase.close st2 = (.error (.runtimeError closedMsg), st2) ∧
    (PyError.valueError closedMsg).isInvalidState = true ∧
    (PyError.runtimeError closedMsg).isInvalidState = true ∧
    MetricBase.forward (MetricBase.forward st2 data).2 data = MetricBase.forward st2 data ∧
    MetricBase.close (MetricBase.close st2).2 = MetricBase.close st2 := by
  have h2 : st2.closed = true := by
    rcases st with ⟨uh, closed⟩
    cases closed with
    | false =>
      simp only [MetricBase.close, Bool.not_false, if_true, Prod.mk.injEq] at hc
      rw [← hc.2]
    | true => simp [MetricBase.close] at hc
  have hf : MetricBase.forward st2 data = (.error (.valueError closedMsg), st2) := by
    simp [MetricBase.forward, h2]
  have hcl : MetricBase.close st2 = (.error (.runtimeError closedMsg), st2) := by
    simp [MetricBase.close, h2]
  refine ⟨hf, hcl, by decide, by decide, ?_, ?_⟩
  · rw [hf]
    exact hf
  · rw [hcl]
    exact hcl

/-- Witness for C2: closing a fresh evaluator succeeds, and `forward` on
the resulting closed state raises the closed-state `ValueError` leaving the
state unchanged. -/
theorem closed_evaluator_rejects_calls_witness :
    MetricBase.forward ⟨UnorderedSha256.init, true⟩ (.dict []) =
      (.error (.valueError closedMsg), ⟨UnorderedSha256.init, true⟩) :=
  (closed_evaluator_rejects_calls MetricBase.init ⟨UnorderedSha256.init, true⟩ [] rfl
    (.dict [])).1

/-- C6: the first `close()` on a fresh evaluator (and on a fresh chain with
no children) succeeds, returns the empty result mapping, and transitions
the object to closed permanently: after that, no sequence of further calls
ever clears the closed flag. -/
theorem fresh_close_returns_empty :
    MetricBase.close MetricBase.init = (.ok [], ⟨UnorderedSha256.init, true⟩) ∧
    MetricChain.close MetricChain.init = (.ok [], ⟨⟨UnorderedSha256.init, true⟩, []⟩) ∧
    (∀ ops : List MetricOp, (runBaseOps ⟨UnorderedSha256.init, true⟩ ops).closed = true) ∧
    (∀ ops : List ChainOp, (runChainOps ⟨⟨UnorderedSha256.init, true⟩, []⟩ ops).base.closed = true) :=
  ⟨rfl, rfl, fun ops => runBaseOps_preserves_closed rfl ops,
    fun ops => runChainOps_preserves_closed rfl ops⟩

/-- C7: on an open evaluator, `forward` with a non-dict argument raises the
`TypeError` and returns the state (closed flag and accumulator) exactly
unchanged. -/
theorem nondict_update_rejected (st : MetricState) (data : PyData)
    (hopen : st.closed = false) (hnd : data.isDict = false) :
    MetricBase.forward st data = (.error (.typeError "Data must be a dict."), st) := by
  simp [MetricBase.forward, hopen, hnd]

/-- Witness for C7 at a concrete input: a fresh evaluator rejects a
non-dict batch with the `TypeError` and is left in its initial state. -/
theorem nondict_update_rejected_witness :
    MetricBase.forward MetricBase.init (.nondict "list") =
      (.error (.typeError "Data must be a dict."), MetricBase.init) :=
  nondict_update_rejected MetricBase.init (.nondict "list") rfl rfl

/-! ## Multiset sensitivity of the fingerprint -/

set_option maxRecDepth 100000 in
/-- Counterexample to C5 as stated universally: the multisets
`{hello × 256}` and `{}` differ in the multiplicity of the record `hello`
yet produce the same digest — bytewise addition modulo 256 cancels after
256 copies of a record, so a fixed-size commutative digest cannot separate
every pair of multisets that differ in some multiplicity. -/
theorem multiset_multiplicity_collision :
    (MetricState._hash_relevant_data MetricBase.init (List.replicate 256 "hello"))._hashvalue =
      (MetricState._hash_relevant_data MetricBase.init [])._hashvalue ∧
    List.replicate 256 "hello" ≠ ([] : List String) :=
  ⟨by decide, by decide⟩

/-- C5 (amended): the fingerprint is sensitive to multiplicity on the
spec's concrete examples: the records `[hello, hello, world]` (that is,
`{A, A, B}` with `A = hello`, `B = world`) produce a digest different from
`[hello, world]` (`{A, B}`). -/
theorem multiset_sensitivity_examples :
    (MetricState._hash_relevant_data MetricBase.init ["hello", "hello", "world"])._hashvalue ≠
      (MetricState._hash_relevant_data MetricBase.init ["hello", "world"])._hashvalue := by
  decide

/-! ## Chain close: merge semantics -/

/-- The state of a child after a successful `close`. -/
def closeChild (e : Evaluator) : Evaluator :=
  { e with base := { e.base with closed := true } }

/-- Looking a key up after `dictSet`: the set key maps to the new value,
every other key is untouched. -/
lemma dictGet_dictSet :
    ∀ (res : List (String × Nat)) (k1 : String) (v1 : Nat) (k : String),
      dictGet (dictSet res k1 v1) k = if k1 = k then some v1 else dictGet res k := by
  intro res
  induction res with
  | nil =>
    intro k1 v1 k
    rfl
  | cons p rest ih =>
    rcases p with ⟨a, b⟩
    intro k1 v1 k
    by_cases ha : a = k1
    · subst ha
      simp only [dictSet, if_pos rfl, dictGet]
      by_cases hk : a = k
      · simp [hk]
      · simp [hk]
    · simp only [dictSet, if_neg ha, dictGet, ih]
      by_cases hak : a = k
      · have hk : k1 ≠ k := fun h => ha (hak.trans h.symm)
        simp [hak, hk]
      · simp [hak]

lemma dictGet_some_mem {l : List (String × Nat)} {k : String} {v : Nat}
    (h : dictGet l k = some v) : k ∈ l.map Prod.fst := by
  induction l with
  | nil => simp [dictGet] at h
  | cons p rest ih =>
    rcases p with ⟨a, b⟩
    by_cases hak : a = k
    · simp [hak]
    · rw [dictGet, if_neg hak] at h
      simpa using Or.inr (ih h)

lemma dictGet_none_of_not_mem {l : List (String × Nat)} {k : String}
    (h : k ∉ l.map Prod.fst) : dictGet l k = none := by
  rcases hr : dictGet l k with _ | v
  · rfl
  · exact absurd (dictGet_some_mem hr) h

/-- Merging `d` into `res` when `d` carries the key: the key takes the
value from `d` (`d` has unique keys, being a Python dict). -/
lemma dictGet_dictUpdate :
    ∀ (d : List (String × Nat)), (d.map Prod.fst).Nodup →
      ∀ (res : List (String × Nat)) (k : String),
        dictGet (dictUpdate res d) k =
          match dictGet d k with
          | some v => some v
          | none => dictGet res k := by
  intro d
  induction d with
  | nil =>
    intro _ res k
    rfl
  | cons p rest ih =>
    rcases p with ⟨k1, v1⟩
    intro hnd res k
    simp only [List.map_cons, List.nodup_cons] at hnd
    rcases hnd with ⟨hk1, hrest⟩
    simp only [dictUpdate, ih hrest, dictGet]
    by_cases hk : k1 = k
    · subst hk
      have h2 : dictGet rest k1 = none := dictGet_none_of_not_mem hk1
      simp [h2, dictGet_dictSet]
    · rcases hr : dictGet rest k with _ | v
      · simp [hk, hr, dictGet_dictSet]
      · simp [hk, hr]

/-- Merging `d` into `res` when `d` lacks the key: the key keeps the value
from `res`. -/
lemma dictGet_dictUpdate_none :
    ∀ (d res : List (String × Nat)) (k : String),
      dictGet d k = none → dictGet (dictUpdate res d) k = dictGet res k := by
  intro d
  induction d with
  | nil => intro res k _; rfl
  | cons p rest ih =>
    rcases p with ⟨k1, v1⟩
    intro res k hnone
    rw [dictGet] at hnone
    by_cases hk : k1 = k
    · rw [if_pos hk] at hnone
      cases hnone
    · rw [if_neg hk] at hnone
      simp only [dictUpdate]
      rw [ih (dictSet res k1 v1) k hnone, dictGet_dictSet, if_neg hk]

/-! ## Chain close -/

lemma evaluator_close_open (e : Evaluator) (he : e.base.closed = false) :
    Evaluator.close e = (.ok e.result, closeChild e) := by
  simp [Evaluator.close, MetricBase.close, he, closeChild]

lemma closeChildren_all_open :
    ∀ (l : List Evaluator) (res : List (String × Nat)),
      (∀ e ∈ l, e.base.closed = false) →
      closeChildren res l =
        (.ok (l.foldl (fun r e => dictUpdate r e.result) res), l.map closeChild) := by
  intro l
  induction l with
  | nil => intro res _; rfl
  | cons e rest ih =>
    intro res hall
    have he := hall e (List.mem_cons_self e rest)
    have hrest : ∀ x ∈ rest, x.base.closed = false :=
      fun x hx => hall x (List.mem_cons_of_mem e hx)
    simp only [closeChildren, evaluator_close_open e he,
      ih (dictUpdate res e.result) hrest, List.foldl_cons, List.map_cons]

/-- C3: closing an open chain transitions the chain to closed, closes every
child exactly once in registration order, and returns the left fold of the
children's result mappings under Python dict update — so on a key
collision the later-registered child's value overwrites the earlier one,
and a key absent from the later mapping keeps the earlier value; in
particular the children emitting `a ↦ 1` and then `a ↦ 2, b ↦ 3` merge to
`a ↦ 2, b ↦ 3`. -/
theorem chain_close_merges_last_wins (c : ChainState)
    (hopen : c.base.closed = false)
    (hch : ∀ e ∈ c.metric_list, e.base.closed = false) :
    MetricChain.close c =
      (.ok (c.metric_list.foldl (fun res e => dictUpdate res e.result) []),
        ⟨{ c.base with closed := true }, c.metric_list.map closeChild⟩) ∧
    (∀ d : List (String × Nat), (d.map Prod.fst).Nodup →
      ∀ (res : List (String × Nat)) (k : String) (v : Nat),
        dictGet d k = some v → dictGet (dictUpdate res d) k = some v) ∧
    (∀ (d res : List (String × Nat)) (k : String),
      dictGet d k = none → dictGet (dictUpdate res d) k = dictGet res k) ∧
    (MetricChain.close
        ⟨MetricBase.init, [mkEvaluator [("a", 1)], mkEvaluator [("a", 2), ("b", 3)]]⟩).1 =
      .ok [("a", 2), ("b", 3)] := by
  refine ⟨?_, ?_, ?_, ?_⟩
  · simp [MetricChain.close, MetricBase.close, hopen,
      closeChildren_all_open c.metric_list [] hch]
  · intro d hnd res k v hv
    rw [dictGet_dictUpdate d hnd res k, hv]
  · exact dictGet_dictUpdate_none
  · rfl

/-- Witness for C3 at the spec's concrete example: the two-child chain
merges to exactly `a ↦ 2, b ↦ 3`. -/
theorem chain_close_merges_last_wins_witness :
    (MetricChain.close
        ⟨MetricBase.init, [mkEvaluator [("a", 1)], mkEvaluator [("a", 2), ("b", 3)]]⟩).1 =
      .ok [("a", 2), ("b", 3)] :=
  (chain_close_merges_last_wins
      ⟨MetricBase.init, [mkEvaluator [("a", 1)], mkEvaluator [("a", 2), ("b", 3)]]⟩ rfl
      (by
        intro e he
        simp only [List.mem_cons, List.not_mem_nil, or_false] at he
        rcases he with h | h <;> subst h <;> rfl)).2.2.2

/-! ## Chain forward: fan-out -/

/-- A child whose `forward` succeeds on `data`: it is open and its
subclass body does not raise. -/
def childOk (e : Evaluator) (data : PyData) : Prop :=
  e.base.closed = false ∧ e.updateErr data = none

/-- The state of a child after consuming `data` once. -/
def updatedChild (e : Evaluator) (data : PyData) : Evaluator :=
  { e with log := e.log ++ [data] }

lemma evaluator_forward_ok (e : Evaluator) (data : PyData) (hd : data.isDict = true)
    (h : childOk e data) : Evaluator.forward e data = (.ok (), updatedChild e data) := by
  rcases h with ⟨hopen, herr⟩
  simp [Evaluator.forward, MetricBase.forward, hopen, hd, herr, updatedChild]

lemma forwardChildren_all_ok (data : PyData) (hd : data.isDict = true) :
    ∀ l : List Evaluator, (∀ e ∈ l, childOk e data) →
      forwardChildren data l = (.ok (), l.map (fun e => updatedChild e data)) := by
  intro l
  induction l with
  | nil => intro _; rfl
  | cons e rest ih =>
    intro hall
    have he := hall e (List.mem_cons_self e rest)
    have hrest : ∀ x ∈ rest, childOk x data := fun x hx => hall x (List.mem_cons_of_mem e hx)
    simp only [forwardChildren, evaluator_forward_ok e data hd he, ih hrest, List.map_cons]

lemma forwardChildren_fail (data : PyData) (err : PyError) :
    ∀ (pre : List Evaluator) (e : Evaluator) (post : List Evaluator),
      data.isDict = true → (∀ x ∈ pre, childOk x data) →
      Evaluator.forward e data = (.error err, e) →
      forwardChildren data (pre ++ e :: post) =
        (.error err, pre.map (fun x => updatedChild x data) ++ e :: post) := by
  intro pre
  induction pre with
  | nil =>
    intro e post _ _ hfail
    simp only [List.nil_append, forwardChildren, hfail, List.map_nil]
  | cons x rest ih =>
    intro e post hd hall hfail
    have hx := hall x (List.mem_cons_self x rest)
    have hrest : ∀ y ∈ rest, childOk y data := fun y hy => hall y (List.mem_cons_of_mem x hy)
    have ih2 := ih e post hd hrest hfail
    simp only [List.cons_append, forwardChildren, evaluator_forward_ok x data hd hx,
      List.append_eq, ih2, List.map_cons]

/-- C4: on an open chain, one `forward(batch)` call with a dict batch
forwards the identical batch to every registered child exactly once, in
registration order; a closed chain or a non-dict batch raises before any
child is invoked (the children are returned untouched); and when a child's
`forward` raises, the error propagates immediately, the children before it
in that call stay updated, and the failing child and the children after it
stay untouched — no rollback. -/
theorem chain_forward_fanout (data : PyData) (hd : data.isDict = true) :
    (∀ c : ChainState, c.base.closed = false → (∀ e ∈ c.metric_list, childOk e data) →
      MetricChain.forward c data =
        (.ok (), { c with metric_list := c.metric_list.map (fun e => updatedChild e data) })) ∧
    (∀ (c : ChainState) (d : PyData), c.base.closed = true →
      MetricChain.forward c d = (.error (.valueError closedMsg), c)) ∧
    (∀ (c : ChainState) (d : PyData), c.base.closed = false → d.isDict = false →
      MetricChain.forward c d = (.error (.typeError "Data must be a dict."), c)) ∧
    (∀ (c : ChainState) (pre : List Evaluator) (e : Evaluator) (post : List Evaluator)
        (err : PyError), c.base.closed = false →
      c.metric_list = pre ++ e :: post → (∀ x ∈ pre, childOk x data) →
      Evaluator.forward e data = (.error err, e) →
      MetricChain.forward c data =
        (.error err,
          { c with metric_list := pre.map (fun x => updatedChild x data) ++ e :: post })) := by
  refine ⟨?_, ?_, ?_, ?_⟩
  · intro c hopen hall
    simp [MetricChain.forward, MetricBase.forward, hopen, hd,
      forwardChildren_all_ok data hd c.metric_list hall]
  · intro c d hclosed
    simp [MetricChain.forward, MetricBase.forward, hclosed]
  · intro c d hopen hnd
    simp [MetricChain.forward, MetricBase.forward, hopen, hnd]
  · intro c pre e post err hopen hlist hpre hfail
    simp [MetricChain.forward, MetricBase.forward, hopen, hd, hlist,
      forwardChildren_fail data err pre e post hd hpre hfail]

/-- Witness for C4 at a concrete input: a closed chain rejects a dict
batch with the closed-state `ValueError`, children untouched. -/
theorem chain_forward_fanout_witness :
    MetricChain.forward ⟨⟨UnorderedSha256.init, true⟩, []⟩ (.dict []) =
      (.error (.valueError closedMsg), ⟨⟨UnorderedSha256.init, true⟩, []⟩) :=
  (chain_forward_fanout (.dict []) rfl).2.1 ⟨⟨UnorderedSha256.init, true⟩, []⟩ (.dict []) rfl

/-! ## Registration -/

lemma runChainOps_add_metrics :
    ∀ (es : List Evaluator) (c : ChainState),
      (runChainOps c (es.map (fun e => ChainOp.add_metric (.metric e)))).metric_list =
        c.metric_list ++ es := by
  intro es
  induction es with
  | nil => intro c; simp [runChainOps]
  | cons e rest ih =>
    intro c
    simp only [List.map_cons, runChainOps, List.foldl_cons]
    have : (runChainOp c (ChainOp.add_metric (.metric e))).metric_list =
        c.metric_list ++ [e] := rfl
    rw [show runChainOp c (ChainOp.add_metric (.metric e)) =
        { c with metric_list := c.metric_list ++ [e] } from rfl]
    simpa [runChainOps] using ih { c with metric_list := c.metric_list ++ [e] }

/-- C8: `add_metric` raises a `TypeError` when its argument is not a
`MetricBase` instance and leaves the chain unchanged; a valid evaluator is
appended at the end of `metric_list`, so a sequence of registrations from
a fresh chain yields the children exactly in registration order — the
order `metric_list` is traversed at close-merge time. -/
theorem add_metric_validates_and_appends :
    (∀ (c : ChainState) (tag : String),
      MetricChain.add_metric c (.nonmetric tag) =
        (.error (.typeError "Metric must be a subclass of MetricBase"), c)) ∧
    (∀ (c : ChainState) (e : Evaluator),
      MetricChain.add_metric c (.metric e) =
        (.ok (), { c with metric_list := c.metric_list ++ [e] })) ∧
    (∀ es : List Evaluator,
      (runChainOps MetricChain.init (es.map (fun e => ChainOp.add_metric (.metric e)))).metric_list
        = es) :=
  ⟨fun _ _ => rfl, fun _ _ => rfl,
    fun es => by simpa [MetricChain.init] using runChainOps_add_metrics es MetricChain.init⟩

/-- C9: `add_metric` performs no closed-state check — on a closed chain it
still succeeds and appends the child — and a subsequent `close()` on the
chain raises the closed-state `RuntimeError` leaving the chain and every
child (the late-registered one included) untouched, so the chain never
closes a child registered after its own close. -/
theorem add_metric_ignores_closed (c : ChainState) (hclosed : c.base.closed = true)
    (e : Evaluator) :
    MetricChain.add_metric c (.metric e) =
      (.ok (), { c with metric_list := c.metric_list ++ [e] }) ∧
    MetricChain.close { c with metric_list := c.metric_list ++ [e] } =
      (.error (.runtimeError closedMsg), { c with metric_list := c.metric_list ++ [e] }) :=
  ⟨rfl, by simp [MetricChain.close, MetricBase.close, hclosed]⟩

/-- Witness for C9 at a concrete input: registering a fresh child on a
closed chain succeeds and appends it. -/
theorem add_metric_ignores_closed_witness :
    MetricChain.add_metric ⟨⟨UnorderedSha256.init, true⟩, []⟩ (.metric (mkEvaluator [("a", 1)])) =
      (.ok (), ⟨⟨UnorderedSha256.init, true⟩, [mkEvaluator [("a", 1)]]⟩) :=
  (add_metric_ignores_closed ⟨⟨UnorderedSha256.init, true⟩, []⟩ rfl (mkEvaluator [("a", 1)])).1

/-! ## The chain's own fingerprint -/

lemma runChainOp_preserves_hash (c : ChainState) (op : ChainOp) :
    (runChainOp c op).base.unordered_hash = c.base.unordered_hash := by
  cases op with
  | forward data =>
    simp only [runChainOp, MetricChain.forward]
    rcases hf : MetricBase.forward c.base data with ⟨out, st⟩
    cases out with
    | error err => rfl
    | ok u =>
      rcases hg : forwardChildren data c.metric_list with ⟨out2, l2⟩
      rfl
  | close =>
    simp only [runChainOp, MetricChain.close]
    rcases hc2 : MetricBase.close c.base with ⟨out, b2⟩
    have hb2 : b2.unordered_hash = c.base.unordered_hash := by
      have he : b2 = (MetricBase.close c.base).2 := by rw [hc2]
      rw [he]
      simp only [MetricBase.close]
      by_cases h : c.base.closed
      · simp [h]
      · simp [h]
    cases out with
    | error err => rfl
    | ok res => exact hb2
  | add_metric m => cases m <;> rfl

lemma runChainOps_preserves_hash (c : ChainState) :
    ∀ ops : List ChainOp, (runChainOps c ops).base.unordered_hash = c.base.unordered_hash := by
  intro ops
  induction ops generalizing c with
  | nil => rfl
  | cons op rest ih =>
    simp only [runChainOps, List.foldl_cons]
    rw [show (List.foldl runChainOp (runChainOp c op) rest) =
        runChainOps (runChainOp c op) rest from rfl,
      ih (runChainOp c op), runChainOp_preserves_hash]

/-- C10: the chain inherits a fingerprint accumulator but never folds a
record into it: after any sequence of `forward`, `close` and `add_metric`
calls from a fresh chain, the chain's own `_hashvalue` still equals the
digest of the empty record multiset. -/
theorem chain_own_fingerprint_stays_empty (ops : List ChainOp) :
    (runChainOps MetricChain.init ops).base._hashvalue =
      (MetricState._hash_relevant_data MetricBase.init [])._hashvalue := by
  simp only [MetricState._hashvalue, UnorderedSha256.digest,
    MetricState._hash_relevant_data, List.foldl_nil]
  rw [runChainOps_preserves_hash MetricChain.init ops]
  rfl

end Cotk
